import Mathlib

/-!
Shallow embedding of the tsfluent Result / ResultAsync containers and the
AsyncUtils retry/timeout combinators, translated from the repository sources:

* `src/result.ts` — the synchronous `Result` container;
* `src/result-async.ts` — the asynchronous `ResultAsync` container (the
  current, generic version of the class: the one exported by `src/index.ts`
  and exercised by the property-style tests);
* `src/utils/async-utils.ts` — the `AsyncUtils` class (`retry`, `tryAsync`).

Modelling conventions:

* `new Date()` timestamps: real time is modelled by an explicit `now : Nat`
  parameter passed to every operation that can stamp a timestamp; a stored
  `Date` is a `Nat`.
* JavaScript `undefined` for an optional field is `Option.none`; an object
  spread `{...a, ...b}` over the fixed-field record shapes is a field-wise
  right-biased merge (a field of `b` wins when it is present).
* Promises: every promise held by the containers in the modelled flows is
  already settled, so a `Promise<T>` slot is modelled by the value it
  resolves to (`Option T`, since it can resolve to `undefined`); the
  `_value?: Promise<T>` slot of `ResultAsync` is `Option (Option T)`
  (outer layer: is the slot present, i.e. the `if (!this._value)` check).
* Thrown/rejected values are modelled as native errors carrying a message
  (`JsError`); the `causedBy` field of an error record is modelled as an
  optional native error (the nested-error-record alternative of the union
  is not needed by any modelled flow).
* Asynchronous scheduling: an action given to `AsyncUtils` is a function
  from the invocation index to that invocation's behaviour; for `tryAsync`
  a behaviour also carries the number of milliseconds until it settles so
  that the `Promise.race` against the timeout timer can be decided (the
  timer wins exactly when the timeout is enabled and strictly shorter than
  the action's settling time).
-/

namespace TsFluent

/-- A native JavaScript `Error`: only its `message` is observed by the code. -/
structure JsError where
  message : String
deriving Repr, DecidableEq

/-- A value stored in a `context` map (`Record<string, unknown>`): the modelled
flows only ever store numbers, booleans, strings or `undefined`. -/
inductive CtxVal where
  | num (n : Nat)
  | bool (b : Bool)
  | str (s : String)
  | undefined
deriving Repr, DecidableEq

/-- An open string-keyed map (`IMetadata` / `Record<string, unknown>`). -/
abbrev CtxMap := List (String × CtxVal)

/-- `IError` from `src/@types/result.ts`. -/
structure IError where
  message : String
  metadata : Option CtxMap := none
  causedBy : Option JsError := none
  reasonCode : Option String := none
  context : Option CtxMap := none
  timestamp : Option Nat := none
deriving Repr, DecidableEq

/-- `ISuccess` from `src/@types/result.ts`. -/
structure ISuccess where
  message : Option String := none
  metadata : Option CtxMap := none
  context : Option CtxMap := none
  timestamp : Option Nat := none
deriving Repr, DecidableEq

/-- `IResultMetadata` from `src/@types/result.ts`. -/
structure IResultMetadata where
  metadata : Option CtxMap := none
  message : Option String := none
  context : Option CtxMap := none
  timestamp : Option Nat := none
deriving Repr, DecidableEq

/-- `IResultOptions` as supplied by a caller: every field optional. -/
structure IResultOptions where
  defaultValueWhenFailure : Option Bool := none
  preserveErrorsOrder : Option Bool := none
  metadata : Option IResultMetadata := none
deriving Repr, DecidableEq

/-- The `_options` slot after the constructor's `{...defaults, ...options}`
merge: the two policy flags are concrete (the defaults are concrete). -/
structure StoredOptions where
  defaultValueWhenFailure : Bool := false
  preserveErrorsOrder : Bool := true
  metadata : Option IResultMetadata := none
deriving Repr, DecidableEq

/-- `{...this._options, ...options}` in the constructors: a field supplied by
`options` wins, an absent field keeps the default. -/
def StoredOptions.merge (o : IResultOptions) : StoredOptions where
  defaultValueWhenFailure := o.defaultValueWhenFailure.getD false
  preserveErrorsOrder := o.preserveErrorsOrder.getD true
  metadata := o.metadata

/-- `{...options.metadata, timestamp: options.metadata.timestamp || new Date()}`
(constructor) and the tail of `withMetadata`: stamp the timestamp if absent. -/
def stampMetadata (now : Nat) (m : IResultMetadata) : IResultMetadata :=
  { m with timestamp := some (m.timestamp.getD now) }

/-- `addError`'s `{...error, timestamp: error.timestamp || new Date()}`. -/
def stampError (now : Nat) (e : IError) : IError :=
  { e with timestamp := some (e.timestamp.getD now) }

/-- `addSuccess`'s `{...success, timestamp: success.timestamp || new Date()}`. -/
def stampSuccess (now : Nat) (s : ISuccess) : ISuccess :=
  { s with timestamp := some (s.timestamp.getD now) }

/-- The polymorphic second argument of the `ok`/`okAsync` factories.  The
source dispatches on the presence of the reserved `metadata` key
(`"metadata" in metadataOrOptions`); the `opts` constructor stands for an
argument carrying that key (an options object), `md` for one without it
(treated as a metadata object). -/
inductive MetadataOrOptions where
  | md (m : IResultMetadata)
  | opts (o : IResultOptions)
deriving Repr, DecidableEq

/-- The argument of the `fail`/`failAsync` factories:
`string | IError | IError[]`. -/
inductive ErrorInput where
  | str (s : String)
  | record (e : IError)
  | list (es : List IError)
deriving Repr, DecidableEq

/-- The argument of `withError`: `string | IError`. -/
inductive ErrorArg where
  | str (s : String)
  | record (e : IError)
deriving Repr, DecidableEq

/-- The argument of `withSuccess`: `string | ISuccess`. -/
inductive SuccessArg where
  | str (s : String)
  | record (s : ISuccess)
deriving Repr, DecidableEq

/-- The state of a `Result<T>` (`src/result.ts`): the private fields. -/
structure Result (T : Type) where
  _isSuccess : Bool := true
  _value : Option T := none
  _errors : List IError := []
  _successes : List ISuccess := []
  _metadata : Option IResultMetadata := none
  _options : StoredOptions := {}
deriving Repr, DecidableEq

namespace Result

/-- The protected constructor `new Result(value, options?)`. -/
def new (now : Nat) (value : Option T) (options : Option IResultOptions) :
    Result T :=
  match options with
  | none => { _value := value }
  | some o =>
      { _value := value
        _options := StoredOptions.merge o
        _metadata := o.metadata.map (stampMetadata now) }

/-- `isSuccess` getter. -/
def isSuccess (r : Result T) : Bool := r._isSuccess

/-- `isFailure` getter. -/
def isFailure (r : Result T) : Bool := !r.isSuccess

/-- Private `addError`: push a copy of the error, stamping its timestamp
with the current time when absent. -/
def addError (now : Nat) (r : Result T) (e : IError) : Result T :=
  { r with _errors := r._errors ++ [stampError now e] }

/-- Private `addSuccess`: push a copy of the success record, stamping its
timestamp with the current time when absent. -/
def addSuccess (now : Nat) (r : Result T) (s : ISuccess) : Result T :=
  { r with _successes := r._successes ++ [stampSuccess now s] }

/-- `Result.ok(value, metadataOrOptions?)`. -/
def ok (now : Nat) (value : Option T) (mo : Option MetadataOrOptions) :
    Result T :=
  match mo with
  | none => new now value none
  | some (.opts o) => new now value (some o)
  | some (.md m) => new now value (some { metadata := some m })

/-- `Result.fail(error, metadata?)`. -/
def fail (now : Nat) (error : ErrorInput) (metadata : Option IResultMetadata) :
    Result T :=
  let result : Result T := new now none (some { metadata := metadata })
  let result := { result with _isSuccess := false }
  match error with
  | .str s => result.addError now { message := s }
  | .record e => result.addError now e
  | .list es => es.foldl (fun r e => r.addError now e) result

/-- The `value` getter: throws `"Cannot get value from failed result"` on a
failure-status container unless `defaultValueWhenFailure` is set, otherwise
returns the stored value slot (which may be absent/`undefined`). -/
def value (r : Result T) : Except String (Option T) :=
  if r.isFailure && !r._options.defaultValueWhenFailure then
    .error "Cannot get value from failed result"
  else
    .ok r._value

/-- The `errors` getter: a copy of the stored sequence, reversed when
`preserveErrorsOrder` is false. -/
def errors (r : Result T) : List IError :=
  if r._options.preserveErrorsOrder then r._errors else r._errors.reverse

/-- `getErrors()` (deprecated alias of the `errors` getter). -/
def getErrors (r : Result T) : List IError := r.errors

/-- `getSuccesses()`: a copy of the success sequence. -/
def getSuccesses (r : Result T) : List ISuccess := r._successes

/-- `getMetadata()`: a copy of the metadata, or absent. -/
def getMetadata (r : Result T) : Option IResultMetadata := r._metadata

/-- The `metadata` property getter (accessor form of `getMetadata`, used by
`ResultAsync.fromResult`). -/
def metadata (r : Result T) : Option IResultMetadata := r._metadata

/-- `withError(error)`: append one error, force failure status, return self. -/
def withError (now : Nat) (r : Result T) (error : ErrorArg) : Result T :=
  let r :=
    match error with
    | .str s => r.addError now { message := s }
    | .record e => r.addError now e
  { r with _isSuccess := false }

/-- `withSuccess(success)`: append one success record; a string argument is
wrapped as `{message, timestamp: now}`, a record argument has its timestamp
overwritten with `now` (`{...success, timestamp: new Date()}`). -/
def withSuccess (now : Nat) (r : Result T) (success : SuccessArg) : Result T :=
  match success with
  | .str msg => r.addSuccess now { message := some msg, timestamp := some now }
  | .record s => r.addSuccess now { s with timestamp := some now }

/-- `withValue(value)`: overwrite the value slot only in success status. -/
def withValue (r : Result T) (v : T) : Result T :=
  if r.isSuccess then { r with _value := some v } else r

/-- `withMetadata(metadata)`:
`{...this._metadata, ...metadata, timestamp: metadata.timestamp || new Date()}`. -/
def withMetadata (now : Nat) (r : Result T) (m : IResultMetadata) : Result T :=
  { r with
    _metadata := some
      { metadata := m.metadata.orElse (fun _ => r._metadata.bind (·.metadata))
        message := m.message.orElse (fun _ => r._metadata.bind (·.message))
        context := m.context.orElse (fun _ => r._metadata.bind (·.context))
        timestamp := some (m.timestamp.getD now) } }

/-- `clearErrors()`: empty the error sequence and reset status to success. -/
def clearErrors (r : Result T) : Result T :=
  { r with _errors := [], _isSuccess := true }

/-- `Result.merge(results)` (`src/result.ts`): collect the values of the
success inputs whose value slot is present, accumulate the raw error
sequences of the failing inputs and every input's success records; any
failure makes the merged container a failure with no value. -/
def merge (now : Nat) (results : List (Result T)) : Result (List T) :=
  let mergedResult : Result (List T) := { }
  let values := results.filterMap (fun r =>
    if r.isSuccess && r._value.isSome then r._value else none)
  let hasErrors := results.any (fun r => r.isFailure)
  let mergedResult := results.foldl (fun (acc : Result (List T)) r =>
    let acc := if r.isFailure then
        r._errors.foldl (fun a e => a.addError now e) acc
      else acc
    r._successes.foldl (fun a s => a.addSuccess now s) acc) mergedResult
  if hasErrors then { mergedResult with _isSuccess := false }
  else { mergedResult with _value := some values }

end Result

/-- The state of a `ResultAsync<T>` (`src/result-async.ts`): same shape as
`Result`, except the value slot holds a (settled) promise; the outer `Option`
is the `_value?:` slot's presence (the `if (!this._value)` check), the inner
`Option` is the value the promise resolves to (`undefined` allowed). -/
structure ResultAsync (T : Type) where
  _isSuccess : Bool := true
  _value : Option (Option T) := none
  _errors : List IError := []
  _successes : List ISuccess := []
  _metadata : Option IResultMetadata := none
  _options : StoredOptions := {}
deriving Repr, DecidableEq

namespace ResultAsync

/-- The protected constructor `new ResultAsync(value, options?)`: a
non-promise argument is wrapped with `Promise.resolve`, so the slot is always
present afterwards; `value = none` is the `undefined` argument. -/
def new (now : Nat) (value : Option T) (options : Option IResultOptions) :
    ResultAsync T :=
  match options with
  | none => { _value := some value }
  | some o =>
      { _value := some value
        _options := StoredOptions.merge o
        _metadata := o.metadata.map (stampMetadata now) }

/-- `isSuccess` getter. -/
def isSuccess (r : ResultAsync T) : Bool := r._isSuccess

/-- `isFailure` getter. -/
def isFailure (r : ResultAsync T) : Bool := !r.isSuccess

/-- Private `addError` (same as `Result.addError`). -/
def addError (now : Nat) (r : ResultAsync T) (e : IError) : ResultAsync T :=
  { r with _errors := r._errors ++ [stampError now e] }

/-- Private `addSuccess` (same as `Result.addSuccess`). -/
def addSuccess (now : Nat) (r : ResultAsync T) (s : ISuccess) : ResultAsync T :=
  { r with _successes := r._successes ++ [stampSuccess now s] }

/-- `ResultAsync.okAsync(value, metadataOrOptions?)`. -/
def okAsync (now : Nat) (value : Option T) (mo : Option MetadataOrOptions) :
    ResultAsync T :=
  match mo with
  | none => new now value none
  | some (.opts o) => new now value (some o)
  | some (.md m) => new now value (some { metadata := some m })

/-- `ResultAsync.failAsync(error, metadata?)`. -/
def failAsync (now : Nat) (error : ErrorInput)
    (metadata : Option IResultMetadata) : ResultAsync T :=
  let result : ResultAsync T := new now none (some { metadata := metadata })
  let result := { result with _isSuccess := false }
  match error with
  | .str s => result.addError now { message := s }
  | .record e => result.addError now e
  | .list es => es.foldl (fun r e => r.addError now e) result

/-- The `value` getter: same failure-access guard as `Result.value`, returning
the pending handle itself (here: the settled slot). -/
def value (r : ResultAsync T) : Except String (Option T) :=
  if r.isFailure && !r._options.defaultValueWhenFailure then
    .error "Cannot get value from failed result"
  else
    .ok (r._value.getD none)

/-- The `errors` getter (insertion order, reversed when
`preserveErrorsOrder` is false). -/
def errors (r : ResultAsync T) : List IError :=
  if r._options.preserveErrorsOrder then r._errors else r._errors.reverse

/-- `getErrors()` (deprecated alias of the `errors` getter). -/
def getErrors (r : ResultAsync T) : List IError := r.errors

/-- `getSuccesses()`. -/
def getSuccesses (r : ResultAsync T) : List ISuccess := r._successes

/-- The `metadata` property getter. -/
def metadata (r : ResultAsync T) : Option IResultMetadata := r._metadata

/-- `withError(error)`. -/
def withError (now : Nat) (r : ResultAsync T) (error : ErrorArg) :
    ResultAsync T :=
  let r :=
    match error with
    | .str s => r.addError now { message := s }
    | .record e => r.addError now e
  { r with _isSuccess := false }

/-- `withMetadata(metadata)` (same merge as `Result.withMetadata`). -/
def withMetadata (now : Nat) (r : ResultAsync T) (m : IResultMetadata) :
    ResultAsync T :=
  { r with
    _metadata := some
      { metadata := m.metadata.orElse (fun _ => r._metadata.bind (·.metadata))
        message := m.message.orElse (fun _ => r._metadata.bind (·.message))
        context := m.context.orElse (fun _ => r._metadata.bind (·.context))
        timestamp := some (m.timestamp.getD now) } }

/-- `ResultAsync.fromResult(result)`: lift a synchronous `Result`, seeding the
slot with `result.isSuccess ? result.value : undefined`, copying status, the
projected error sequence, the success records and the metadata. -/
def fromResult (now : Nat) (result : Result T) : ResultAsync T :=
  let asyncResult : ResultAsync T :=
    new now (if result.isSuccess then result._value else none) none
  let asyncResult :=
    if result.isFailure then
      result.errors.foldl (fun (a : ResultAsync T) e => a.addError now e)
        { asyncResult with _isSuccess := false }
    else asyncResult
  let asyncResult :=
    result.getSuccesses.foldl (fun a s => a.addSuccess now s) asyncResult
  match result.metadata with
  | some m => asyncResult.withMetadata now m
  | none => asyncResult

/-- `toResult()`: await the slot, build `Result.ok(value)` or
`Result.fail(this.getErrors())`, re-apply the metadata and replay every
success record through `withSuccess`. -/
def toResult (now : Nat) (ra : ResultAsync T) : Result T :=
  let value : Option T := ra._value.getD none
  let result : Result T :=
    if ra.isSuccess then Result.ok now value none
    else Result.fail now (.list ra.getErrors) none
  let result :=
    match ra._metadata with
    | some m => result.withMetadata now m
    | none => result
  ra._successes.foldl (fun r s => r.withSuccess now (.record s)) result

/-- `map(func)`: short-circuit a failure into a new failing container built
from `getErrors()` (propagating the metadata when present); guard a missing
value slot with the `"No value present"` failure; otherwise await the value,
apply `func` and wrap the outcome with `okAsync` (propagating the metadata
when present). -/
def map (now : Nat) (r : ResultAsync T) (f : Option T → Option U) :
    ResultAsync U :=
  if r.isFailure then
    let result : ResultAsync U := failAsync now (.list r.getErrors) none
    match r._metadata with
    | some m => result.withMetadata now m
    | none => result
  else
    match r._value with
    | none => failAsync now (.str "No value present") none
    | some v =>
        let result : ResultAsync U := okAsync now (f v) none
        match r._metadata with
        | some m => result.withMetadata now m
        | none => result

end ResultAsync

/-- One invocation's behaviour for an action given to `AsyncUtils.tryAsync`:
it settles after `duration` milliseconds, either resolving with a value or
rejecting with a native error. -/
inductive Attempt (T : Type) where
  | resolves (duration : Nat) (value : T)
  | rejects (duration : Nat) (error : JsError)
deriving Repr, DecidableEq

/-- What one call of an `AsyncUtils` combinator did: the `Result` it
returned, how many times it invoked the action, and the list of
`setTimeout`-based delays it awaited (in order, in milliseconds). -/
structure AsyncOutcome (T : Type) where
  result : Result T
  invocations : Nat
  sleeps : List Nat
deriving Repr, DecidableEq

namespace AsyncUtils

/-- The `timeoutMs` context entry: the parameter's value, or `undefined`. -/
def timeoutCtx (timeoutMs : Option Nat) : CtxVal :=
  match timeoutMs with
  | some t => .num t
  | none => .undefined

/-- The settling time of an attempt, in milliseconds. -/
def attemptDuration : Attempt T → Nat
  | .resolves d _ => d
  | .rejects d _ => d

/-- One attempt of `tryAsync`'s loop body up to the `catch`: when `timeoutMs`
is truthy (present and nonzero) the action is raced against a timer that
rejects with `Error("Operation timed out")` after `timeoutMs` milliseconds —
the timer wins exactly when it is strictly shorter than the action's settling
time; otherwise the action is awaited directly. -/
def raced (a : Attempt T) (timeoutMs : Option Nat) : Except JsError T :=
  let own : Except JsError T :=
    match a with
    | .resolves _ v => .ok v
    | .rejects _ e => .error e
  match timeoutMs with
  | some t =>
      if t ≠ 0 then
        if t < attemptDuration a then .error { message := "Operation timed out" }
        else own
      else own
  | none => own

/-- The `do`-`while` loop of `AsyncUtils.tryAsync`, starting an iteration
with counter value `attempts`; `invs`/`sleeps` accumulate the observable
effects.  A rejection whose message is `"Operation timed out"` returns a
failure immediately (timeouts are not retried); otherwise, after an optional
delay, the loop continues while `++attempts < maxAttempts`, and exhaustion
produces the failure recording `{attempts, maxAttempts, delayMs, timeoutMs}`
with the last rejection as `causedBy`. -/
def tryAsyncGo (now : Nat) (action : Nat → Attempt T)
    (maxAttempts delayMs : Nat) (timeoutMs : Option Nat)
    (attempts : Nat) (invs : Nat) (sleeps : List Nat) : AsyncOutcome T :=
  match raced (action attempts) timeoutMs with
  | .ok v =>
      { result := Result.ok now (some v) none
        invocations := invs + 1, sleeps := sleeps }
  | .error e =>
      if e.message = "Operation timed out" then
        { result := Result.fail now (.record
            { message := "Operation timed out"
              context := some [("timeoutMs", timeoutCtx timeoutMs)] }) none
          invocations := invs + 1, sleeps := sleeps }
      else
        let sleeps' :=
          if attempts + 1 < maxAttempts && delayMs > 0 then sleeps ++ [delayMs]
          else sleeps
        if _h : attempts + 1 < maxAttempts then
          tryAsyncGo now action maxAttempts delayMs timeoutMs
            (attempts + 1) (invs + 1) sleeps'
        else
          { result := Result.fail now (.record
              { message := e.message
                causedBy := some e
                context := some
                  [("attempts", .num (attempts + 1)),
                   ("maxAttempts", .num maxAttempts),
                   ("delayMs", .num delayMs),
                   ("timeoutMs", timeoutCtx timeoutMs)] }) none
            invocations := invs + 1, sleeps := sleeps' }
termination_by maxAttempts - attempts

/-- `AsyncUtils.tryAsync(action, maxAttempts = 3, delayMs = 1000,
timeoutMs?)` (`src/utils/async-utils.ts`). -/
def tryAsync (now : Nat) (action : Nat → Attempt T)
    (maxAttempts delayMs : Nat) (timeoutMs : Option Nat) : AsyncOutcome T :=
  tryAsyncGo now action maxAttempts delayMs timeoutMs 0 0 []

/-- The `while (attempts <= retries)` loop of `AsyncUtils.retry`: a success
returns `Result.ok` immediately; a rejection increments the counter, sleeps
`delay` milliseconds if attempts remain, and retries; exhaustion produces
the `"Max retries reached"` failure recording
`{retries, attempts, finalAttempt: true}` with the last rejection as
`causedBy`. -/
def retryGo (now : Nat) (action : Nat → Except JsError T)
    (retries delay : Nat) (attempts : Nat) (lastError : Option JsError)
    (invs : Nat) (sleeps : List Nat) : AsyncOutcome T :=
  if h : attempts ≤ retries then
    match action attempts with
    | .ok v =>
        { result := Result.ok now (some v) none
          invocations := invs + 1, sleeps := sleeps }
    | .error e =>
        let sleeps' :=
          if attempts + 1 ≤ retries then sleeps ++ [delay] else sleeps
        retryGo now action retries delay (attempts + 1) (some e)
          (invs + 1) sleeps'
  else
    { result := Result.fail now (.record
        { message := "Max retries reached"
          causedBy := lastError
          context := some
            [("retries", .num retries),
             ("attempts", .num attempts),
             ("finalAttempt", .bool true)] }) none
      invocations := invs, sleeps := sleeps }
termination_by retries + 1 - attempts

/-- `AsyncUtils.retry(action, retries = 3, delay = 1000)`
(`src/utils/async-utils.ts`). -/
def retry (now : Nat) (action : Nat → Except JsError T)
    (retries delay : Nat) : AsyncOutcome T :=
  retryGo now action retries delay 0 none 0 []

end AsyncUtils

/-! ## Helper lemmas -/

/-- Stamping an error that already carries a timestamp changes nothing. -/
theorem stampError_of_isSome {e : IError} (h : e.timestamp.isSome = true)
    (now : Nat) : stampError now e = e := by
  obtain ⟨t, ht⟩ := Option.isSome_iff_exists.mp h
  cases e
  simp_all [stampError]

/-- Stamping a list of errors that already carry timestamps changes nothing. -/
theorem stampError_map_of_isSome {es : List IError}
    (h : ∀ e ∈ es, e.timestamp.isSome = true) (now : Nat) :
    es.map (stampError now) = es := by
  induction es with
  | nil => rfl
  | cons e es ih =>
      simp only [List.map_cons, List.cons.injEq]
      exact ⟨stampError_of_isSome (h e (by simp)) now,
        ih (fun x hx => h x (by simp [hx]))⟩

/-- Stamping a metadata object that already carries a timestamp changes
nothing. -/
theorem stampMetadata_of_isSome {m : IResultMetadata}
    (h : m.timestamp.isSome = true) (now : Nat) : stampMetadata now m = m := by
  obtain ⟨t, ht⟩ := Option.isSome_iff_exists.mp h
  cases m
  simp_all [stampMetadata]

/-- Folding `Result.addError` over a list appends the stamped errors. -/
theorem Result.addError_foldl (now : Nat) (es : List IError)
    (acc : Result T) :
    es.foldl (fun a e => a.addError now e) acc =
      { acc with _errors := acc._errors ++ es.map (stampError now) } := by
  induction es generalizing acc with
  | nil => simp
  | cons e es ih => rw [List.foldl_cons, ih]; simp [Result.addError]

/-- Folding `Result.addSuccess` over a list appends the stamped records. -/
theorem Result.addSuccess_foldl (now : Nat) (ss : List ISuccess)
    (acc : Result T) :
    ss.foldl (fun a s => a.addSuccess now s) acc =
      { acc with _successes := acc._successes ++ ss.map (stampSuccess now) } := by
  induction ss generalizing acc with
  | nil => simp
  | cons s ss ih => rw [List.foldl_cons, ih]; simp [Result.addSuccess]

/-- Folding `ResultAsync.addError` over a list appends the stamped errors. -/
theorem ResultAsync.addError_foldlAsync (now : Nat) (es : List IError)
    (acc : ResultAsync T) :
    es.foldl (fun a e => a.addError now e) acc =
      { acc with _errors := acc._errors ++ es.map (stampError now) } := by
  induction es generalizing acc with
  | nil => simp
  | cons e es ih => rw [List.foldl_cons, ih]; simp [ResultAsync.addError]

/-- Folding `ResultAsync.addSuccess` over a list appends the stamped
records. -/
theorem ResultAsync.addSuccess_foldlAsync (now : Nat) (ss : List ISuccess)
    (acc : ResultAsync T) :
    ss.foldl (fun a s => a.addSuccess now s) acc =
      { acc with _successes := acc._successes ++ ss.map (stampSuccess now) } := by
  induction ss generalizing acc with
  | nil => simp
  | cons s ss ih => rw [List.foldl_cons, ih]; simp [ResultAsync.addSuccess]

/-- Replaying success records through `Result.withSuccess` appends them with
every timestamp overwritten by the current time. -/
theorem Result.withSuccess_foldl (now : Nat) (ss : List ISuccess)
    (acc : Result T) :
    ss.foldl (fun r s => r.withSuccess now (.record s)) acc =
      { acc with
        _successes :=
          acc._successes ++ ss.map (fun s => { s with timestamp := some now }) } := by
  induction ss generalizing acc with
  | nil => simp
  | cons s ss ih =>
      rw [List.foldl_cons, ih]
      simp [Result.withSuccess, Result.addSuccess, stampSuccess]

/-- Stamping a list of errors that all carry timestamps (boolean `all` form)
changes nothing. -/
theorem stampError_map_of_all {es : List IError}
    (h : es.all (fun e => e.timestamp.isSome) = true) (now : Nat) :
    es.map (stampError now) = es :=
  stampError_map_of_isSome (by simpa using List.all_eq_true.mp h) now

/-- Stamping an optional metadata object that carries a timestamp (boolean
`all` form) changes nothing. -/
theorem stampMetadata_map_of_all {o : Option IResultMetadata}
    (h : o.all (fun m => m.timestamp.isSome) = true) (now : Nat) :
    o.map (stampMetadata now) = o := by
  cases o with
  | none => rfl
  | some m =>
      exact congrArg some (stampMetadata_of_isSome (by simpa using h) now)

/-- Overwriting the timestamp of a freshly stamped success record is the same
as overwriting the original's. -/
theorem stampSuccess_overwrite (t u : Nat) (s : ISuccess) :
    ({ stampSuccess t s with timestamp := some u } : ISuccess) =
      { s with timestamp := some u } := by
  cases s
  rfl

/-- Membership in the projected `errors` sequence coincides with membership
in the stored sequence. -/
theorem Result.mem_errors_iff {r : Result T} {e : IError} :
    e ∈ r.errors ↔ e ∈ r._errors := by
  unfold Result.errors
  split <;> simp

/-- Membership in the projected `errors` sequence of a `ResultAsync`
coincides with membership in the stored sequence. -/
theorem ResultAsync.mem_errors_iffAsync {r : ResultAsync T} {e : IError} :
    e ∈ r.errors ↔ e ∈ r._errors := by
  unfold ResultAsync.errors
  split <;> simp

/-- `withMetadata` on a container holding no metadata stores the given object
unchanged when it already carries a timestamp. -/
theorem ResultAsync.withMetadata_of_none (now : Nat) (r : ResultAsync T)
    (m : IResultMetadata) (h0 : r._metadata = none)
    (ht : m.timestamp.isSome = true) :
    r.withMetadata now m = { r with _metadata := some m } := by
  obtain ⟨t, htt⟩ := Option.isSome_iff_exists.mp ht
  cases m
  simp_all [ResultAsync.withMetadata]

/-- Characterization of `failAsync` on an error list: a fresh failing
container holding the stamped copies of the given errors. -/
theorem ResultAsync.failAsync_list_eq (now : Nat) (es : List IError) :
    (ResultAsync.failAsync now (.list es) none : ResultAsync T) =
      { _isSuccess := false, _value := some none,
        _errors := es.map (stampError now), _successes := [],
        _metadata := none, _options := {} } := by
  simp [ResultAsync.failAsync, ResultAsync.new, ResultAsync.addError_foldlAsync,
    StoredOptions.merge]

/-- The `forEach` loop of `Result.merge`: it appends the stamped raw error
sequences of the failing inputs and the stamped success records of every
input, touching nothing else. -/
theorem Result.mergeLoop_eq (now : Nat) (results : List (Result T))
    (acc : Result (List T)) :
    results.foldl (fun (acc : Result (List T)) r =>
      let acc := if r.isFailure then
          r._errors.foldl (fun a e => a.addError now e) acc
        else acc
      r._successes.foldl (fun a s => a.addSuccess now s) acc) acc =
      { acc with
        _errors :=
          acc._errors ++ (results.filter (fun r => r.isFailure)).flatMap
            (fun r => r._errors.map (stampError now)),
        _successes :=
          acc._successes ++ results.flatMap
            (fun r => r._successes.map (stampSuccess now)) } := by
  induction results generalizing acc with
  | nil => simp
  | cons r rs ih =>
      rw [List.foldl_cons, ih]
      cases hf : r.isFailure <;>
        simp [hf, Result.addError_foldl, Result.addSuccess_foldl]

/-- Characterization of `ResultAsync.fromResult`: status and value seed,
stamped copies of the projected errors, the successes and the metadata. -/
theorem ResultAsync.fromResult_eq (t1 : Nat) (r : Result T) :
    ResultAsync.fromResult t1 r =
      { _isSuccess := r._isSuccess,
        _value := some (if r._isSuccess then r._value else none),
        _errors := if r._isSuccess then [] else r.errors.map (stampError t1),
        _successes := r._successes.map (stampSuccess t1),
        _metadata := r._metadata.map (stampMetadata t1),
        _options := {} } := by
  cases hs : r._isSuccess <;> cases hm : r._metadata <;>
    simp [ResultAsync.fromResult, ResultAsync.new, Result.isSuccess,
      Result.isFailure, Result.metadata, Result.getSuccesses, hs, hm,
      ResultAsync.addError_foldlAsync, ResultAsync.addSuccess_foldlAsync,
      ResultAsync.withMetadata, stampMetadata]

/-- Characterization of `ResultAsync.toResult`: status, the awaited value on
success, stamped copies of the projected errors on failure, the metadata, and
the success records re-stamped at the conversion time. -/
theorem ResultAsync.toResult_eq (t2 : Nat) (ra : ResultAsync T) :
    ra.toResult t2 =
      { _isSuccess := ra._isSuccess,
        _value := if ra._isSuccess then ra._value.getD none else none,
        _errors := if ra._isSuccess then []
          else ra.getErrors.map (stampError t2),
        _successes := ra._successes.map
          (fun s => { s with timestamp := some t2 }),
        _metadata := ra._metadata.map (stampMetadata t2),
        _options := {} } := by
  cases hs : ra._isSuccess <;> cases hm : ra._metadata <;>
    simp [ResultAsync.toResult, ResultAsync.isSuccess, Result.ok, Result.fail,
      Result.new, Result.addError_foldl, Result.withSuccess_foldl,
      Result.withMetadata, stampMetadata, StoredOptions.merge, hs, hm,
      ResultAsync.getErrors, ResultAsync.errors]

/-! ## Claim theorems -/

/-- C1: reading `value` on a failure-status `Result` raises the
`"Cannot get value from failed result"` access error when
`defaultValueWhenFailure` is false (the default), and returns the stored
(last-assigned, possibly absent) value without raising when the option is
true. -/
theorem value_access_spec {T : Type} (r : Result T)
    (hf : r._isSuccess = false) :
    (r._options.defaultValueWhenFailure = false →
      r.value = Except.error "Cannot get value from failed result") ∧
    (r._options.defaultValueWhenFailure = true →
      r.value = Except.ok r._value) := by
  constructor <;> intro h <;>
    simp [Result.value, Result.isFailure, Result.isSuccess, hf, h]

/-- C1 witness: a failure built by `fail` (default options) raises; a failure
built over `defaultValueWhenFailure = true` returns the stored value. -/
theorem value_access_spec_witness :
    (Result.fail 0 (.str "e") none : Result Nat).value =
      Except.error "Cannot get value from failed result" ∧
    ((Result.ok 0 (some 5)
        (some (.opts { defaultValueWhenFailure := some true })) :
          Result Nat).withError 1 (.str "e")).value = Except.ok (some 5) := by
  constructor
  · exact (value_access_spec _ (by decide)).1 (by decide)
  · exact (value_access_spec _ (by decide)).2 (by decide)

/-- C2: `merge` over all-success inputs yields a success whose value (also as
read through the `value` accessor) is the list of the inputs' values in input
order, skipping absent values; `merge` over inputs containing at least one
failure yields a failure that accumulates every failing input's error records
in order, holds no values list, and whose `value` accessor raises the access
error. -/
theorem merge_spec {T : Type} (now : Nat) (results : List (Result T)) :
    ((∀ r ∈ results, r._isSuccess = true) →
      (Result.merge now results)._isSuccess = true ∧
      (Result.merge now results)._value =
        some (results.filterMap (fun r => r._value)) ∧
      (Result.merge now results).value =
        Except.ok (some (results.filterMap (fun r => r._value)))) ∧
    ((∃ r ∈ results, r._isSuccess = false) →
      (Result.merge now results)._isSuccess = false ∧
      (Result.merge now results)._errors =
        (results.filter (fun r => r.isFailure)).flatMap
          (fun r => r._errors.map (stampError now)) ∧
      (Result.merge now results)._value = none ∧
      (Result.merge now results).value =
        Except.error "Cannot get value from failed result") := by
  constructor
  · intro h
    have hany : results.any (fun r => r.isFailure) = false := by
      simp only [List.any_eq_false, Result.isFailure, Result.isSuccess]
      intro r hr
      simp [h r hr]
    have hmerge : Result.merge now results =
        { _isSuccess := true,
          _value := some (results.filterMap (fun r => r._value)),
          _errors := (results.filter (fun r => r.isFailure)).flatMap
            (fun r => r._errors.map (stampError now)),
          _successes := results.flatMap
            (fun r => r._successes.map (stampSuccess now)),
          _metadata := none, _options := {} } := by
      simp only [Result.merge, Result.mergeLoop_eq, hany, Bool.false_eq_true,
        if_false, Result.mk.injEq, List.nil_append, and_true, true_and]
      refine congrArg some (List.filterMap_congr (fun r hr => ?_))
      cases hv : r._value <;> simp [Result.isSuccess, h r hr, hv]
    rw [hmerge]
    exact ⟨rfl, rfl, by simp [Result.value, Result.isFailure, Result.isSuccess]⟩
  · intro h
    have hany : results.any (fun r => r.isFailure) = true := by
      obtain ⟨r, hr, hfr⟩ := h
      exact List.any_eq_true.mpr ⟨r, hr,
        by simp [Result.isFailure, Result.isSuccess, hfr]⟩
    have hmerge : Result.merge now results =
        { _isSuccess := false,
          _value := none,
          _errors := (results.filter (fun r => r.isFailure)).flatMap
            (fun r => r._errors.map (stampError now)),
          _successes := results.flatMap
            (fun r => r._successes.map (stampSuccess now)),
          _metadata := none, _options := {} } := by
      simp [Result.merge, Result.mergeLoop_eq, hany]
    rw [hmerge]
    exact ⟨rfl, rfl, rfl, by simp [Result.value, Result.isFailure,
      Result.isSuccess]⟩

/-- C2 witness: the spec's two examples — merging three successes reads the
ordered values list, merging one success with two failures is a failure with
exactly the two accumulated errors and a raising `value` accessor. -/
theorem merge_spec_witness :
    (Result.merge 9 [Result.ok 0 (some 1) none, Result.ok 0 (some 2) none,
      Result.ok 0 (some 3) none]).value = Except.ok (some [1, 2, 3]) ∧
    (Result.merge 9 [Result.ok 0 (some 1) none,
      Result.fail 1 (.str "a") none, Result.fail 2 (.str "b") none] :
        Result (List Nat))._errors.length = 2 ∧
    (Result.merge 9 [Result.ok 0 (some 1) none,
      Result.fail 1 (.str "a") none, Result.fail 2 (.str "b") none] :
        Result (List Nat)).value =
      Except.error "Cannot get value from failed result" := by
  refine ⟨?_, ?_, ?_⟩
  · have h := (merge_spec 9 [Result.ok 0 (some 1) none,
      Result.ok 0 (some 2) none, Result.ok 0 (some 3) none]).1 (by decide)
    exact h.2.2.trans (by rfl)
  · have h := (merge_spec 9 [Result.ok 0 (some 1) none,
      Result.fail 1 (.str "a") none, Result.fail 2 (.str "b") none]).2
      ⟨Result.fail 1 (.str "a") none, by decide⟩
    rw [h.2.1]
    decide
  · exact ((merge_spec 9 [Result.ok 0 (some 1) none,
      Result.fail 1 (.str "a") none, Result.fail 2 (.str "b") none]).2
      ⟨Result.fail 1 (.str "a") none, by decide⟩).2.2.2

/-- C4 counterexample: the round-trip `fromResult(r).toResult()` does not
reproduce the success sequence content-equally — a success record stamped at
time 1 comes back stamped with the conversion time 3. -/
theorem roundTrip_success_timestamp_counterexample :
    ((Result.ok 0 (some 42) none : Result Nat).withSuccess 1
        (.record { message := some "s" }))._successes.map (·.timestamp)
      = [some 1] ∧
    ((ResultAsync.fromResult 2 ((Result.ok 0 (some 42) none :
        Result Nat).withSuccess 1 (.record { message := some "s" }))).toResult
        3)._successes.map (·.timestamp) = [some 3] ∧
    ¬ ((ResultAsync.fromResult 2 ((Result.ok 0 (some 42) none :
        Result Nat).withSuccess 1 (.record { message := some "s" }))).toResult
        3)._successes =
      ((Result.ok 0 (some 42) none : Result Nat).withSuccess 1
        (.record { message := some "s" }))._successes := by
  decide

/-- C4 (amended): for a `Result` whose stored errors and metadata carry
timestamps and whose error list is empty in success status (as every
API-built container's are), the round-trip `fromResult(r).toResult()`
reproduces the status, the projected error sequence, and the metadata
content-equally, and reproduces the success sequence except that every
success record's timestamp is replaced by the time of the `toResult` call. -/
theorem fromResult_toResult_roundtrip {T : Type} (r : Result T) (t1 t2 : Nat)
    (he : r._errors.all (fun e => e.timestamp.isSome) = true)
    (hm : r._metadata.all (fun m => m.timestamp.isSome) = true)
    (hse : r._isSuccess = true → r._errors = []) :
    ((ResultAsync.fromResult t1 r).toResult t2)._isSuccess = r._isSuccess ∧
    ((ResultAsync.fromResult t1 r).toResult t2).errors = r.errors ∧
    ((ResultAsync.fromResult t1 r).toResult t2)._metadata = r._metadata ∧
    ((ResultAsync.fromResult t1 r).toResult t2)._successes =
      r._successes.map (fun s => { s with timestamp := some t2 }) := by
  have he' : ∀ e ∈ r.errors, e.timestamp.isSome = true := fun e hee =>
    List.all_eq_true.mp he e (Result.mem_errors_iff.mp hee)
  have herr : r.errors.map (stampError t1) = r.errors :=
    stampError_map_of_isSome he' t1
  have herr2 : r.errors.map (stampError t2) = r.errors :=
    stampError_map_of_isSome he' t2
  have hmeta : r._metadata.map (stampMetadata t1) = r._metadata :=
    stampMetadata_map_of_all hm t1
  have hmeta2 : r._metadata.map (stampMetadata t2) = r._metadata :=
    stampMetadata_map_of_all hm t2
  rw [ResultAsync.toResult_eq, ResultAsync.fromResult_eq]
  refine ⟨rfl, ?_, ?_, ?_⟩
  · cases hs : r._isSuccess with
    | true =>
        simp [Result.errors, ResultAsync.getErrors, ResultAsync.errors, hs,
          hse hs]
    | false =>
        simp only [hs, Bool.false_eq_true, if_false, if_true,
          ResultAsync.getErrors, ResultAsync.errors, Result.errors]
        show List.map (stampError t2) (List.map (stampError t1) r.errors) =
          r.errors
        rw [herr, herr2]
  · simp [hmeta, hmeta2]
  · simp [List.map_map, Function.comp_def, stampSuccess]

/-- C4 witness: a concrete failure with one stamped error, one success record
and stamped metadata round-trips with errors and metadata preserved and the
success timestamp re-stamped. -/
theorem fromResult_toResult_roundtrip_witness :
    ((ResultAsync.fromResult 2 ((Result.fail 0 (.str "x")
        (some { message := some "m", timestamp := some 7 }) :
          Result Nat).withSuccess 1 (.str "s"))).toResult 3).errors =
      ((Result.fail 0 (.str "x")
        (some { message := some "m", timestamp := some 7 }) :
          Result Nat).withSuccess 1 (.str "s")).errors ∧
    ((ResultAsync.fromResult 2 ((Result.fail 0 (.str "x")
        (some { message := some "m", timestamp := some 7 }) :
          Result Nat).withSuccess 1 (.str "s"))).toResult 3)._metadata =
      some { message := some "m", timestamp := some 7 } ∧
    ((ResultAsync.fromResult 2 ((Result.fail 0 (.str "x")
        (some { message := some "m", timestamp := some 7 }) :
          Result Nat).withSuccess 1 (.str "s"))).toResult 3)._successes =
      [{ message := some "s", timestamp := some 3 }] := by
  have h := fromResult_toResult_roundtrip ((Result.fail 0 (.str "x")
    (some { message := some "m", timestamp := some 7 }) :
      Result Nat).withSuccess 1 (.str "s")) 2 3 (by decide) (by decide)
    (by decide)
  exact ⟨h.2.1, h.2.2.1.trans (by decide), h.2.2.2.trans (by decide)⟩

/-- C5: on a failing `ResultAsync` (with API-stamped errors and metadata),
`map` produces a new failing container carrying the same error records
without invoking the transformation function (the outcome does not depend on
`f`), with the original metadata propagated onto it; on a success container
whose value slot is present, `map` awaits the value, applies `f`, and wraps
the outcome in a new success container with the metadata likewise
propagated. -/
theorem resultAsync_map_spec {T U : Type} (now : Nat) (r : ResultAsync T)
    (he : r._errors.all (fun e => e.timestamp.isSome) = true)
    (hm : r._metadata.all (fun m => m.timestamp.isSome) = true) :
    (r._isSuccess = false → ∀ f : Option T → Option U,
      r.map now f =
        { _isSuccess := false, _value := some none, _errors := r.errors,
          _successes := [], _metadata := r._metadata, _options := {} }) ∧
    (∀ v, r._isSuccess = true → r._value = some v →
      ∀ f : Option T → Option U,
      r.map now f =
        { _isSuccess := true, _value := some (f v), _errors := [],
          _successes := [], _metadata := r._metadata, _options := {} }) := by
  have he' : ∀ e ∈ r.errors, e.timestamp.isSome = true := fun e hee =>
    List.all_eq_true.mp he e (ResultAsync.mem_errors_iffAsync.mp hee)
  have herr : r.errors.map (stampError now) = r.errors :=
    stampError_map_of_isSome he' now
  constructor
  · intro hf f
    have hmap : r.map now f =
        match r._metadata with
        | some m => (ResultAsync.failAsync now (.list r.getErrors) none :
            ResultAsync U).withMetadata now m
        | none => ResultAsync.failAsync now (.list r.getErrors) none := by
      simp [ResultAsync.map, ResultAsync.isFailure, ResultAsync.isSuccess, hf]
    rw [hmap]
    cases hmm : r._metadata with
    | none =>
        rw [ResultAsync.failAsync_list_eq]
        simp [ResultAsync.getErrors, herr]
    | some m =>
        have hts : m.timestamp.isSome = true := by simp_all
        obtain ⟨t, htt⟩ := Option.isSome_iff_exists.mp hts
        cases m
        simp_all [ResultAsync.failAsync_list_eq, ResultAsync.withMetadata,
          ResultAsync.getErrors, herr]
  · intro v hs hv f
    have hmap : r.map now f =
        match r._metadata with
        | some m => (ResultAsync.okAsync now (f v) none :
            ResultAsync U).withMetadata now m
        | none => ResultAsync.okAsync now (f v) none := by
      simp [ResultAsync.map, ResultAsync.isFailure, ResultAsync.isSuccess,
        hs, hv]
    rw [hmap]
    cases hmm : r._metadata with
    | none => simp [ResultAsync.okAsync, ResultAsync.new]
    | some m =>
        have hts : m.timestamp.isSome = true := by simp_all
        obtain ⟨t, htt⟩ := Option.isSome_iff_exists.mp hts
        cases m
        simp_all [ResultAsync.okAsync, ResultAsync.new,
          ResultAsync.withMetadata]

/-- C5 witness: a concrete failing container with metadata maps (under two
different transformation functions) to the same new failing container with
the errors and metadata carried over, and a concrete success container maps
to a new success container holding the transformed value and the metadata. -/
theorem resultAsync_map_spec_witness :
    ((ResultAsync.failAsync 0 (.str "e")
        (some { message := some "m", timestamp := some 4 }) :
          ResultAsync Nat).map 2 (fun v => v.map (· + 1)) :
        ResultAsync Nat) =
      { _isSuccess := false, _value := some none,
        _errors := [{ message := "e", timestamp := some 0 }],
        _successes := [],
        _metadata := some { message := some "m", timestamp := some 4 },
        _options := {} } ∧
    ((ResultAsync.failAsync 0 (.str "e")
        (some { message := some "m", timestamp := some 4 }) :
          ResultAsync Nat).map 2 (fun _ => some 99) : ResultAsync Nat) =
      { _isSuccess := false, _value := some none,
        _errors := [{ message := "e", timestamp := some 0 }],
        _successes := [],
        _metadata := some { message := some "m", timestamp := some 4 },
        _options := {} } ∧
    ((ResultAsync.okAsync 0 (some 5)
        (some (.md { message := some "m", timestamp := some 4 })) :
          ResultAsync Nat).map 2 (fun v => v.map (· + 1)) :
        ResultAsync Nat) =
      { _isSuccess := true, _value := some (some 6), _errors := [],
        _successes := [],
        _metadata := some { message := some "m", timestamp := some 4 },
        _options := {} } := by
  refine ⟨?_, ?_, ?_⟩
  · exact ((resultAsync_map_spec 2 _ (by decide) (by decide)).1 (by decide)
      (fun v => v.map (· + 1))).trans (by decide)
  · exact ((resultAsync_map_spec 2 _ (by decide) (by decide)).1 (by decide)
      (fun _ => some 99)).trans (by decide)
  · exact ((resultAsync_map_spec 2 _ (by decide) (by decide)).2 (some 5)
      (by decide) (by decide) (fun v => v.map (· + 1))).trans (by decide)

/-- C7 counterexample: `fail` applied to the empty error list produces a
failure-status container with zero error records, refuting the claim for the
empty-list input. -/
theorem fail_empty_list_counterexample :
    (Result.fail 0 (.list []) none : Result Nat)._isSuccess = false ∧
    (Result.fail 0 (.list []) none : Result Nat)._errors = [] := by
  decide

/-- C7 (amended): every failure-producing operation applied to a non-empty
error input — `fail` on a string, a single record, or a non-empty list, or
`withError` — leaves the container in failure status with at least one
stored error record. -/
theorem failure_has_error_spec {T : Type} :
    (∀ (now : Nat) (s : String) (md : Option IResultMetadata),
      (Result.fail now (.str s) md : Result T)._isSuccess = false ∧
      1 ≤ (Result.fail now (.str s) md : Result T)._errors.length) ∧
    (∀ (now : Nat) (e : IError) (md : Option IResultMetadata),
      (Result.fail now (.record e) md : Result T)._isSuccess = false ∧
      1 ≤ (Result.fail now (.record e) md : Result T)._errors.length) ∧
    (∀ (now : Nat) (es : List IError) (md : Option IResultMetadata),
      es ≠ [] →
      (Result.fail now (.list es) md : Result T)._isSuccess = false ∧
      (Result.fail now (.list es) md : Result T)._errors.length = es.length ∧
      1 ≤ (Result.fail now (.list es) md : Result T)._errors.length) ∧
    (∀ (now : Nat) (r : Result T) (e : ErrorArg),
      (r.withError now e)._isSuccess = false ∧
      1 ≤ (r.withError now e)._errors.length) := by
  refine ⟨fun now s md => ⟨rfl, by simp [Result.fail, Result.addError]⟩,
    fun now e md => ⟨rfl, by simp [Result.fail, Result.addError]⟩,
    fun now es md hne => ?_, fun now r e => ?_⟩
  · have hfail : (Result.fail now (.list es) md : Result T) =
        { _isSuccess := false, _value := none,
          _errors := es.map (stampError now), _successes := [],
          _metadata := md.map (stampMetadata now),
          _options := { metadata := md } } := by
      simp [Result.fail, Result.new, Result.addError_foldl,
        StoredOptions.merge]
    rw [hfail]
    refine ⟨rfl, by simp, ?_⟩
    simpa using List.length_pos.mpr hne
  · cases e <;> simp [Result.withError, Result.addError]

/-- C7 witness: `fail` on a singleton list yields failure status with exactly
one error record. -/
theorem failure_has_error_spec_witness :
    (Result.fail 0 (.list [{ message := "a" }]) none : Result Nat)._isSuccess
      = false ∧
    1 ≤ (Result.fail 0 (.list [{ message := "a" }]) none :
      Result Nat)._errors.length := by
  have h := (failure_has_error_spec (T := Nat)).2.2.1 0 [{ message := "a" }]
    none (by decide)
  exact ⟨h.1, h.2.2⟩

/-- C6 counterexample: a `Result` holding metadata stamped at time 0, updated
by `withMetadata` at time 5 with an object that supplies no timestamp, ends
with timestamp 5 (the time of the call), not the previously stored 0. -/
theorem withMetadata_timestamp_counterexample :
    ((Result.ok 0 (some 1)
        (some (.md { message := some "a", timestamp := some 0 })) :
          Result Nat)._metadata.bind (·.timestamp)) = some 0 ∧
    (((Result.ok 0 (some 1)
        (some (.md { message := some "a", timestamp := some 0 })) :
          Result Nat).withMetadata 5
        { message := some "b" })._metadata.bind (·.timestamp)) = some 5 ∧
    ¬ (((Result.ok 0 (some 1)
        (some (.md { message := some "a", timestamp := some 0 })) :
          Result Nat).withMetadata 5
        { message := some "b" })._metadata.bind (·.timestamp)) = some 0 := by
  decide

/-- C6 (amended): on a container that already holds metadata, `withMetadata`
shallow-merges the new object over the old one with the new object's present
fields winning, and sets the merged timestamp to the new object's timestamp
when supplied and to the current time otherwise (the previously stored
timestamp is not kept); the same holds for `ResultAsync.withMetadata`. -/
theorem withMetadata_merge_spec :
    (∀ (T : Type) (r : Result T) (now : Nat) (m old : IResultMetadata),
      r._metadata = some old →
      (r.withMetadata now m)._metadata = some
        { metadata := m.metadata.orElse (fun _ => old.metadata),
          message := m.message.orElse (fun _ => old.message),
          context := m.context.orElse (fun _ => old.context),
          timestamp := some (m.timestamp.getD now) }) ∧
    (∀ (T : Type) (r : ResultAsync T) (now : Nat) (m old : IResultMetadata),
      r._metadata = some old →
      (r.withMetadata now m)._metadata = some
        { metadata := m.metadata.orElse (fun _ => old.metadata),
          message := m.message.orElse (fun _ => old.message),
          context := m.context.orElse (fun _ => old.context),
          timestamp := some (m.timestamp.getD now) }) := by
  constructor <;> intro T r now m old h <;>
    simp [Result.withMetadata, ResultAsync.withMetadata, h]

/-- C6 witness: the merge at a concrete container (old message and timestamp,
new message, no new timestamp) keeps the old context, takes the new message
and stamps the call time. -/
theorem withMetadata_merge_spec_witness :
    ((Result.ok 0 (some 1)
        (some (.md { message := some "a", timestamp := some 0 })) :
          Result Nat).withMetadata 5 { message := some "b" })._metadata = some
      { metadata := none, message := some "b", context := none,
        timestamp := some 5 } ∧
    ((ResultAsync.okAsync 0 (some 1)
        (some (.md { message := some "a", timestamp := some 0 })) :
          ResultAsync Nat).withMetadata 5 { message := some "b" })._metadata
      = some
      { metadata := none, message := some "b", context := none,
        timestamp := some 5 } := by
  constructor
  · exact withMetadata_merge_spec.1 Nat _ 5 { message := some "b" }
      { metadata := none, message := some "a", context := none,
        timestamp := some 0 } (by decide)
  · exact withMetadata_merge_spec.2 Nat _ 5 { message := some "b" }
      { metadata := none, message := some "a", context := none,
        timestamp := some 0 } (by decide)

/-- C9: the `errors` accessor returns the stored sequence in insertion order
when `preserveErrorsOrder` is true (the default) and its exact reverse when
false; the stored sequence itself stays insertion-ordered — `withError`
appends at the tail and leaves the options untouched regardless of the
ordering option, the reversal being only a read-time projection. -/
theorem errors_order_spec {T : Type} (r : Result T) :
    (r._options.preserveErrorsOrder = true → r.errors = r._errors) ∧
    (r._options.preserveErrorsOrder = false →
      r.errors = r._errors.reverse) ∧
    (∀ (now : Nat) (s : String),
      (r.withError now (.str s))._errors =
        r._errors ++ [stampError now { message := s }] ∧
      (r.withError now (.str s))._options = r._options) ∧
    (∀ (now : Nat) (e : IError),
      (r.withError now (.record e))._errors =
        r._errors ++ [stampError now e] ∧
      (r.withError now (.record e))._options = r._options) := by
  refine ⟨fun h => by simp [Result.errors, h],
    fun h => by simp [Result.errors, h], ?_, ?_⟩ <;>
    intro now e <;> simp [Result.withError, Result.addError]

/-- C3 counterexample: `timeoutMs = 0` is smaller than the action's
completion time (5 ms), yet `tryAsync` treats a falsy `timeoutMs` as "no
timeout" (`if (timeoutMs)`) and returns the action's success instead of a
timeout failure. -/
theorem tryAsync_timeout_zero_counterexample :
    (AsyncUtils.tryAsync 0 (fun _ => .resolves 5 (42 : Nat)) 2 0 (some 0)) =
      { result := Result.ok 0 (some 42) none, invocations := 1,
        sleeps := [] } ∧ (0 : Nat) < 5 := by
  constructor
  · rw [AsyncUtils.tryAsync, AsyncUtils.tryAsyncGo]
    simp [AsyncUtils.raced]
  · decide

/-- C3 (amended): for every action and every nonzero `timeoutMs` smaller
than the first attempt's completion time, `tryAsync` returns — after a
single invocation, with no delay awaited — a failure whose message is
`"Operation timed out"` with `timeoutMs` recorded in the failure's context,
regardless of `maxAttempts`: timeouts are not retried. -/
theorem tryAsync_timeout_spec {T : Type} (now : Nat)
    (action : Nat → Attempt T) (maxAttempts delayMs t : Nat) (ht : t ≠ 0)
    (hd : t < AsyncUtils.attemptDuration (action 0)) :
    AsyncUtils.tryAsync now action maxAttempts delayMs (some t) =
      { result := Result.fail now (.record
          { message := "Operation timed out",
            context := some [("timeoutMs", .num t)] }) none,
        invocations := 1, sleeps := [] } := by
  rw [AsyncUtils.tryAsync, AsyncUtils.tryAsyncGo]
  simp [AsyncUtils.raced, AsyncUtils.timeoutCtx, ht, hd]

/-- C3 witness: a 3 ms timeout against an action resolving after 5 ms, with
two attempts allowed, fails immediately after one invocation. -/
theorem tryAsync_timeout_spec_witness :
    (AsyncUtils.tryAsync 0 (fun _ => .resolves 5 (42 : Nat)) 2 0 (some 3)) =
      { result := Result.fail 0 (.record
          { message := "Operation timed out",
            context := some [("timeoutMs", .num 3)] }) none,
        invocations := 1, sleeps := [] } :=
  tryAsync_timeout_spec 0 (fun _ => .resolves 5 (42 : Nat)) 2 0 3
    (by decide) (by decide)

/-- C8 counterexample: an action that rejects on every invocation — with the
message `"Operation timed out"` — under `maxAttempts = 2` is invoked only
once and yields the timeout-shaped failure (no `attempts`/`maxAttempts`
context, no causal chain), because `tryAsync` recognizes timeouts by the
rejection's message. -/
theorem tryAsync_sentinel_rejection_counterexample :
    (AsyncUtils.tryAsync 0
        (fun _ => (.rejects 1 { message := "Operation timed out" } :
          Attempt Nat)) 2 0 none) =
      { result := Result.fail 0 (.record
          { message := "Operation timed out",
            context := some [("timeoutMs", .undefined)] }) none,
        invocations := 1, sleeps := [] } := by
  rw [AsyncUtils.tryAsync, AsyncUtils.tryAsyncGo]
  simp [AsyncUtils.raced, AsyncUtils.timeoutCtx]

/-- C8 (amended): for rejections whose messages are not the timeout sentinel
`"Operation timed out"`: an action rejecting on its first two invocations
and resolving on the third, under `maxAttempts = 3, delayMs = 0`, yields a
success holding the third attempt's value after exactly three invocations;
an action rejecting on every invocation, under `maxAttempts = 2`, yields a
failure after exactly two invocations whose context records
`attempts: 2, maxAttempts: 2` (with `delayMs` and an absent `timeoutMs`)
and whose causal chain is the last rejection. -/
theorem tryAsync_retry_scenarios {T : Type} (now : Nat) :
    (∀ (e0 e1 : JsError) (d0 d1 d2 : Nat) (v : T),
      e0.message ≠ "Operation timed out" →
      e1.message ≠ "Operation timed out" →
      AsyncUtils.tryAsync now (fun i => if i = 0 then .rejects d0 e0
        else if i = 1 then .rejects d1 e1 else .resolves d2 v) 3 0 none =
        { result := Result.ok now (some v) none, invocations := 3,
          sleeps := [] }) ∧
    (∀ (errs : Nat → JsError) (ds : Nat → Nat) (delayMs : Nat),
      (∀ i, (errs i).message ≠ "Operation timed out") →
      (AsyncUtils.tryAsync now
          (fun i => (.rejects (ds i) (errs i) : Attempt T)) 2 delayMs none) =
        { result := Result.fail now (.record
            { message := (errs 1).message, causedBy := some (errs 1),
              context := some [("attempts", .num 2), ("maxAttempts", .num 2),
                ("delayMs", .num delayMs), ("timeoutMs", .undefined)] }) none,
          invocations := 2,
          sleeps := if 0 < delayMs then [delayMs] else [] }) := by
  constructor
  · intro e0 e1 d0 d1 d2 v h0 h1
    rw [AsyncUtils.tryAsync, AsyncUtils.tryAsyncGo]
    simp only [AsyncUtils.raced, h0, if_false, ite_false]
    rw [AsyncUtils.tryAsyncGo]
    simp only [AsyncUtils.raced, h0, h1, if_false, ite_false]
    rw [AsyncUtils.tryAsyncGo]
    simp [AsyncUtils.raced, h0, h1]
  · intro errs ds delayMs h
    rw [AsyncUtils.tryAsync, AsyncUtils.tryAsyncGo]
    simp only [AsyncUtils.raced, h 0, if_false, ite_false]
    rw [AsyncUtils.tryAsyncGo]
    simp [AsyncUtils.raced, AsyncUtils.timeoutCtx, h 0, h 1]

/-- C8 witness: the two scenarios at concrete errors, durations and value. -/
theorem tryAsync_retry_scenarios_witness :
    AsyncUtils.tryAsync 9 (fun i => if i = 0 then .rejects 1 { message := "a" }
      else if i = 1 then .rejects 1 { message := "b" }
      else .resolves 1 (7 : Nat)) 3 0 none =
      { result := Result.ok 9 (some 7) none, invocations := 3,
        sleeps := [] } ∧
    (AsyncUtils.tryAsync 9
        (fun _ => (.rejects 1 { message := "boom" } : Attempt Nat)) 2 4
        none) =
      { result := Result.fail 9 (.record
          { message := "boom", causedBy := some { message := "boom" },
            context := some [("attempts", .num 2), ("maxAttempts", .num 2),
              ("delayMs", .num 4), ("timeoutMs", .undefined)] }) none,
        invocations := 2, sleeps := [4] } := by
  constructor
  · exact (tryAsync_retry_scenarios (T := Nat) 9).1 { message := "a" }
      { message := "b" } 1 1 1 7 (by decide) (by decide)
  · exact ((tryAsync_retry_scenarios (T := Nat) 9).2
      (fun _ => ({ message := "boom" } : JsError)) (fun _ => 1) 4
      (fun _ => (by decide :
        ({ message := "boom" } : JsError).message ≠
          "Operation timed out"))).trans (by norm_num)

/-- The `while` loop of `AsyncUtils.retry` under an always-rejecting action:
`d` iterations remain, so the loop performs `d` more invocations, sleeps
after each failure except the last, and reports the final failure. -/
theorem retryGo_allFail {T : Type} (now delay retries : Nat)
    (errs : Nat → JsError) :
    ∀ (d attempts invs : Nat) (sleeps : List Nat) (le : Option JsError),
      retries + 1 = attempts + d →
      (AsyncUtils.retryGo now
          (fun i => (Except.error (errs i) : Except JsError T)) retries delay
          attempts le invs sleeps) =
        { result := Result.fail now (.record
            { message := "Max retries reached",
              causedBy := if d = 0 then le else some (errs retries),
              context := some [("retries", .num retries),
                ("attempts", .num (retries + 1)),
                ("finalAttempt", .bool true)] }) none,
          invocations := invs + d,
          sleeps := sleeps ++ List.replicate (d - 1) delay } := by
  intro d
  induction d with
  | zero =>
      intro attempts invs sleeps le hd
      rw [AsyncUtils.retryGo]
      have hgt : ¬ attempts ≤ retries := by omega
      have hatt : attempts = retries + 1 := by omega
      simp [hgt, hatt]
  | succ d ih =>
      intro attempts invs sleeps le hd
      rw [AsyncUtils.retryGo]
      have hle : attempts ≤ retries := by omega
      simp only [hle, dif_pos]
      rw [ih (attempts + 1) (invs + 1) _ (some (errs attempts)) (by omega)]
      cases d with
      | zero =>
          have hatt : attempts = retries := by omega
          simp [hatt, show ¬ (retries + 1 ≤ retries) by omega]
      | succ d' =>
          have hle2 : attempts + 1 ≤ retries := by omega
          simp [hle2, List.replicate_succ]
          omega

/-- C10: for an action rejecting on every invocation, `retry(action,
retries, delay)` invokes the action exactly `retries + 1` times (`retries`
counts extra attempts beyond the first), sleeps `delay` milliseconds after
every failed invocation except the last, and returns a failure whose single
error records `{retries, attempts: retries + 1, finalAttempt: true}` in its
context with the last rejection as the causal chain. -/
theorem retry_exhaustion_spec {T : Type} (now delay retries : Nat)
    (errs : Nat → JsError) :
    (AsyncUtils.retry now
        (fun i => (Except.error (errs i) : Except JsError T)) retries
        delay) =
      { result := Result.fail now (.record
          { message := "Max retries reached",
            causedBy := some (errs retries),
            context := some [("retries", .num retries),
              ("attempts", .num (retries + 1)),
              ("finalAttempt", .bool true)] }) none,
        invocations := retries + 1,
        sleeps := List.replicate retries delay } := by
  rw [AsyncUtils.retry,
    retryGo_allFail now delay retries errs (retries + 1) 0 0 [] none
      (by omega)]
  simp

/-- C9 witness: a container with `preserveErrorsOrder = false` and two
appended errors reads them reversed while storing them in insertion order. -/
theorem errors_order_spec_witness :
    (((Result.ok 0 (some 1)
        (some (.opts
          { preserveErrorsOrder := some false,
            metadata := some { message := some "m" } })) :
          Result Nat).withError 1 (.str "a")).withError 2
            (.str "b"))._errors =
      [{ message := "a", timestamp := some 1 },
       { message := "b", timestamp := some 2 }] ∧
    (((Result.ok 0 (some 1)
        (some (.opts
          { preserveErrorsOrder := some false,
            metadata := some { message := some "m" } })) :
          Result Nat).withError 1 (.str "a")).withError 2
            (.str "b")).errors =
      [{ message := "b", timestamp := some 2 },
       { message := "a", timestamp := some 1 }] := by
  constructor
  · have h := (errors_order_spec ((Result.ok 0 (some 1)
        (some (.opts
          { preserveErrorsOrder := some false,
            metadata := some { message := some "m" } })) :
          Result Nat).withError 1 (.str "a"))).2.2.1 2 "b"
    exact h.1.trans (by decide)
  · have h := (errors_order_spec (((Result.ok 0 (some 1)
        (some (.opts
          { preserveErrorsOrder := some false,
            metadata := some { message := some "m" } })) :
          Result Nat).withError 1 (.str "a")).withError 2
            (.str "b"))).2.1 (by decide)
    exact h.trans (by decide)

end TsFluent
